import Mathlib

/-!
Verification of the Simmurator server core (src/server/src/main.rs).

The Rust source is shallowly embedded: the access-log recorder
(`log_middleware` / `get_access_log`), the stats aggregator (`get_stats`),
the WebSocket session state machine (`handle_socket`), and the SSE
broadcast fan-out (`sse_handler` over a `tokio::sync::broadcast` channel)
are translated into pure Lean functions; the theorems below settle the
specification claims against those functions.
-/

set_option maxRecDepth 8192

namespace Simmurator

/-- Mirrors the Rust `AccessLogEntry` struct (`id: usize`, `timestamp`,
`ip`, `user_agent`, `endpoint`, `method`, `status_code: u16`,
`response_time: u128`, `device_id: Option<String>`).  Machine integers are
modelled as `Nat`; none of the operations on them can overflow at the
sizes involved. -/
structure AccessLogEntry where
  id : Nat
  timestamp : String
  ip : String
  userAgent : String
  endpoint : String
  method : String
  statusCode : Nat
  responseTime : Nat
  deviceId : Option String
deriving DecidableEq

/-- The data of one completed request before an identifier is assigned:
everything `log_middleware` extracts from the request/response pair. -/
structure RequestInfo where
  timestamp : String
  ip : String
  userAgent : String
  endpoint : String
  method : String
  statusCode : Nat
  responseTime : Nat
  deviceId : Option String
deriving DecidableEq

/-- The retention bound of the access log (`if logs.len() > 500 {
logs.truncate(500) }` in `log_middleware`). -/
def logBound : Nat := 500

/-- Builds the stored `AccessLogEntry` from an assigned identifier and the
request data, exactly as the `entry` literal in `log_middleware`. -/
def mkEntry (id : Nat) (r : RequestInfo) : AccessLogEntry :=
  { id := id, timestamp := r.timestamp, ip := r.ip, userAgent := r.userAgent,
    endpoint := r.endpoint, method := r.method, statusCode := r.statusCode,
    responseTime := r.responseTime, deviceId := r.deviceId }

/-- The recorder state held in `AppState`: `request_counter: Mutex<usize>`
and `access_log: Mutex<Vec<AccessLogEntry>>` (front of the list = index 0
of the `Vec` = most recent).  In `log_middleware` the counter guard is
held from identifier assignment until after the log insertion, so the
whole of `record` is one critical section; concurrent `record` calls are
therefore interleaved only at whole-`record` granularity, which is what
this sequential model expresses. -/
structure AccessState where
  counter : Nat
  log : List AccessLogEntry
deriving DecidableEq

/-- Fresh state built in `main`: counter 0, empty log. -/
def initState : AccessState := { counter := 0, log := [] }

/-- One recording step of `log_middleware`: increment the counter, use it
as the identifier, insert the entry at the front, truncate to the bound
when the length exceeds it, and return the stored copy. -/
def record (s : AccessState) (r : RequestInfo) : AccessState × AccessLogEntry :=
  let id := s.counter + 1
  let entry := mkEntry id r
  let inserted := entry :: s.log
  let log := if inserted.length > logBound then inserted.take logBound else inserted
  ({ counter := id, log := log }, entry)

/-- `get_access_log`: `logs.iter().take(limit)` over the retained log,
front (most recent) first. -/
def recent (s : AccessState) (limit : Nat) : List AccessLogEntry :=
  s.log.take limit

/-- The all-time total reported by `get_access_log` (`request_counter`). -/
def totalRecorded (s : AccessState) : Nat := s.counter

/-- Runs a sequence of `record` calls, collecting the entries returned to
the callers in call order. -/
def recordAll : List RequestInfo → AccessState → AccessState × List AccessLogEntry
  | [], s => (s, [])
  | r :: rs, s =>
    let step := record s r
    let rest := recordAll rs step.1
    (rest.1, step.2 :: rest.2)

/-- The recorder state after a sequence of `record` calls from the fresh
state. -/
def runRecords (es : List RequestInfo) : AccessState :=
  (recordAll es initState).1

/-- The entries handed back to the callers of a sequence of `record`
calls from the fresh state, in call order. -/
def assignedEntries (es : List RequestInfo) : List AccessLogEntry :=
  (recordAll es initState).2

/-- The identifiers assigned across a sequence of `record` calls, in call
order. -/
def assignedIds (es : List RequestInfo) : List Nat :=
  (assignedEntries es).map (fun e => e.id)

/-- The full recorded history when the counter starts at `c`: entry `i`
of the list carries identifier `c + i + 1`.  `stampFrom 0 es` is the
complete record history of a fresh recorder, oldest first. -/
def stampFrom : Nat → List RequestInfo → List AccessLogEntry
  | _, [] => []
  | c, r :: rs => mkEntry (c + 1) r :: stampFrom (c + 1) rs

theorem stampFrom_length (c : Nat) (es : List RequestInfo) :
    (stampFrom c es).length = es.length := by
  induction es generalizing c with
  | nil => rfl
  | cons r rs ih => simp [stampFrom, ih]

theorem stampFrom_map_id (c : Nat) (es : List RequestInfo) :
    (stampFrom c es).map (fun e => e.id) = List.range' (c + 1) es.length := by
  induction es generalizing c with
  | nil => rfl
  | cons r rs ih =>
    simp [stampFrom, mkEntry, List.range'_succ, ih]

theorem record_fst_log (s : AccessState) (r : RequestInfo) :
    (record s r).1.log = (mkEntry (s.counter + 1) r :: s.log).take logBound := by
  unfold record
  by_cases h : (mkEntry (s.counter + 1) r :: s.log).length > logBound
  · simp [h]
  · simp only [h]
    simp only [gt_iff_lt, not_lt] at h
    simp [List.take_of_length_le h]

theorem take_append_absorb (n : Nat) (a b : List AccessLogEntry) :
    (a ++ b.take n).take n = (a ++ b).take n := by
  rw [List.take_append_eq_append_take, List.take_append_eq_append_take,
    List.take_take, Nat.min_eq_left (Nat.sub_le n a.length)]

theorem recordAll_eq (es : List RequestInfo) (s : AccessState)
    (h : s.log.length ≤ logBound) :
    recordAll es s =
      ({ counter := s.counter + es.length,
         log := ((stampFrom s.counter es).reverse ++ s.log).take logBound },
       stampFrom s.counter es) := by
  induction es generalizing s with
  | nil =>
    simp [recordAll, stampFrom, List.take_of_length_le h]
  | cons r rs ih =>
    have hstep : (record s r).1.log = (mkEntry (s.counter + 1) r :: s.log).take logBound :=
      record_fst_log s r
    have hlen : (record s r).1.log.length ≤ logBound := by
      rw [hstep]; exact List.length_take_le _ _
    have hcounter : (record s r).1.counter = s.counter + 1 := rfl
    have hsnd : (record s r).2 = mkEntry (s.counter + 1) r := rfl
    simp only [recordAll]
    rw [ih (record s r).1 hlen, hstep, hcounter, hsnd]
    have habs :
        ((stampFrom (s.counter + 1) rs).reverse ++
            (mkEntry (s.counter + 1) r :: s.log).take logBound).take logBound =
          ((stampFrom (s.counter + 1) rs).reverse ++
            (mkEntry (s.counter + 1) r :: s.log)).take logBound :=
      take_append_absorb logBound _ _
    rw [habs]
    simp [stampFrom, List.reverse_cons, List.append_assoc, Nat.add_comm,
      Nat.add_assoc, Nat.add_left_comm]

theorem runRecords_log (es : List RequestInfo) :
    (runRecords es).log = ((stampFrom 0 es).reverse).take logBound := by
  unfold runRecords
  rw [recordAll_eq es initState (by simp [initState, logBound])]
  simp [initState]

theorem runRecords_counter (es : List RequestInfo) :
    (runRecords es).counter = es.length := by
  unfold runRecords
  rw [recordAll_eq es initState (by simp [initState, logBound])]
  simp [initState]

theorem assignedEntries_eq (es : List RequestInfo) :
    assignedEntries es = stampFrom 0 es := by
  unfold assignedEntries
  rw [recordAll_eq es initState (by simp [initState, logBound])]
  rfl

theorem stampFrom_pairwise_lt (c : Nat) (es : List RequestInfo) :
    List.Pairwise (fun a b : AccessLogEntry => a.id < b.id) (stampFrom c es) := by
  have h := List.pairwise_lt_range' (c + 1) es.length 1 (by simp)
  rw [← stampFrom_map_id c es, List.pairwise_map] at h
  exact h

/-- A fixed request payload used to instantiate scenarios concretely. -/
def sampleRequest : RequestInfo :=
  { timestamp := "2025-01-01T00:00:00Z", ip := "127.0.0.1",
    userAgent := "curl", endpoint := "/api/v1/sensors/temperature",
    method := "GET", statusCode := 200, responseTime := 12,
    deviceId := none }

theorem ids_of_recent (es : List RequestInfo) (limit : Nat) :
    (recent (runRecords es) limit).map (fun e => e.id) =
      ((List.range' 1 es.length).reverse).take (min limit logBound) := by
  unfold recent
  rw [runRecords_log, List.take_take, List.map_take, List.map_reverse,
    stampFrom_map_id]

theorem reverse_range'_one_take :
    ((List.range' 1 501).reverse).take 500 = (List.range' 2 500).reverse := by
  have hsplit : List.range' 1 1 ++ List.range' 2 500 = List.range' 1 501 :=
    List.range'_append_1 1 1 500
  rw [← hsplit, List.reverse_append]
  exact List.take_left' (by simp)

/-- C1: `recent(limit)` is claimed to return the `limit` most-recently-
recorded entries for every reachable recorder state and every `limit`.
This fails once more than `logBound` records exist and `limit` exceeds the
bound: after 501 records, the entry with identifier 1 is among the 501
most-recently-recorded entries, yet `recent(501)` (capped by the retained
log) omits it. -/
theorem recent_full_history_counterexample :
    1 ∈ (((stampFrom 0 (List.replicate 501 sampleRequest)).reverse).take 501).map
        (fun e => e.id) ∧
    1 ∉ (recent (runRecords (List.replicate 501 sampleRequest)) 501).map
        (fun e => e.id) := by
  constructor
  · rw [List.map_take, List.map_reverse, stampFrom_map_id]
    simp only [List.length_replicate, Nat.zero_add]
    rw [List.take_of_length_le (by simp)]
    simp only [List.mem_reverse, List.mem_range'_1]
    omega
  · rw [ids_of_recent]
    simp only [List.length_replicate]
    have hmin : min 501 logBound = 500 := by simp [logBound]
    rw [hmin, reverse_range'_one_take]
    simp only [List.mem_reverse, List.mem_range'_1]
    omega

/-- C1 (amended): for every reachable recorder state, `recent(limit)`
returns the `min(limit, 500)` most-recently-recorded entries — the most
recent first — in strictly decreasing identifier order; the cap is forced
by the retention bound of the log.  Identifier assignment and insertion
are a single atomic unit in the source (the counter guard is held across
the insertion), which the atomic `record` step models. -/
theorem recent_most_recent_first_strictly_decreasing
    (es : List RequestInfo) (limit : Nat) :
    recent (runRecords es) limit =
      ((stampFrom 0 es).reverse).take (min limit logBound) ∧
    List.Pairwise (fun a b : AccessLogEntry => b.id < a.id)
      (recent (runRecords es) limit) := by
  constructor
  · unfold recent
    rw [runRecords_log, List.take_take]
  · unfold recent
    rw [runRecords_log]
    have hrev : List.Pairwise (fun a b : AccessLogEntry => b.id < a.id)
        ((stampFrom 0 es).reverse) := by
      rw [List.pairwise_reverse]
      exact stampFrom_pairwise_lt 0 es
    exact List.Pairwise.sublist
      ((List.take_sublist _ _).trans (List.take_sublist _ _)) hrev

/-- C3: the access log never holds more than 500 entries, and eviction
removes the oldest first: after 501 records, `recent(500)` carries exactly
the identifiers 501 down to 2, so it excludes the very first record
(identifier 1) while retaining the other 500. -/
theorem accessLog_bounded_oldest_evicted (es : List RequestInfo) :
    (runRecords es).log.length ≤ logBound ∧
    (es.length = 501 →
      (recent (runRecords es) 500).map (fun e => e.id) =
          (List.range' 2 500).reverse ∧
      1 ∉ (recent (runRecords es) 500).map (fun e => e.id) ∧
      (∀ k, 2 ≤ k → k ≤ 501 →
        k ∈ (recent (runRecords es) 500).map (fun e => e.id))) := by
  constructor
  · rw [runRecords_log]
    exact List.length_take_le _ _
  · intro hlen
    have hids : (recent (runRecords es) 500).map (fun e => e.id) =
        (List.range' 2 500).reverse := by
      rw [ids_of_recent, hlen]
      have hmin : min 500 logBound = 500 := by simp [logBound]
      rw [hmin, reverse_range'_one_take]
    refine ⟨hids, ?_, ?_⟩
    · rw [hids]
      simp only [List.mem_reverse, List.mem_range'_1]
      omega
    · intro k hk2 hk501
      rw [hids]
      simp only [List.mem_reverse, List.mem_range'_1]
      omega

theorem accessLog_bounded_oldest_evicted_witness :
    (List.replicate 501 sampleRequest).length = 501 ∧
    ((recent (runRecords (List.replicate 501 sampleRequest)) 500).map
        (fun e => e.id) = (List.range' 2 500).reverse ∧
      1 ∉ (recent (runRecords (List.replicate 501 sampleRequest)) 500).map
          (fun e => e.id) ∧
      (∀ k, 2 ≤ k → k ≤ 501 →
        k ∈ (recent (runRecords (List.replicate 501 sampleRequest)) 500).map
            (fun e => e.id))) :=
  ⟨by simp,
   (accessLog_bounded_oldest_evicted (List.replicate 501 sampleRequest)).2
     (by simp)⟩

/-- C9: across any sequence of N `record` calls (which the source
serializes through the counter mutex, held across the insertion), the
assigned identifiers are exactly `[1..N]` in call order: no duplicates, no
gaps, strictly increasing, and never reused. -/
theorem record_identifiers_exact_range (es : List RequestInfo) :
    assignedIds es = List.range' 1 es.length ∧
    (assignedIds es).Nodup ∧
    List.Pairwise (fun a b : Nat => a < b) (assignedIds es) ∧
    (∀ k, k ∈ assignedIds es ↔ 1 ≤ k ∧ k ≤ es.length) := by
  have hids : assignedIds es = List.range' 1 es.length := by
    unfold assignedIds
    rw [assignedEntries_eq, stampFrom_map_id]
  refine ⟨hids, ?_, ?_, ?_⟩
  · rw [hids]; exact List.nodup_range' 1 es.length
  · rw [hids]; exact List.pairwise_lt_range' 1 es.length
  · intro k
    rw [hids, List.mem_range'_1]
    omega

/-! ## WebSocket session (`handle_socket`) -/

/-- The fixed catalog `AVAILABLE_SENSORS` from the source. -/
def AVAILABLE_SENSORS : List String :=
  ["temperature", "humidity", "oil-level", "oil-pressure",
   "air-quality", "pressure", "vibration", "energy-meter", "amr",
   "flow-meter", "gas-detector", "ph-sensor", "level-sensor",
   "proximity-sensor"]

/-- The `WSAction` control frames (`serde` tag `action`).  A frame that
fails to decode is represented as `none` where an `Option WSAction`
appears. -/
inductive WSAction where
  | subscribe (sensors : Option (List String)) (interval : Option Nat)
  | unsubscribe (sensors : Option (List String))
  | list
  | ping
deriving DecidableEq

/-- The outbound `WSMessage` frames.  The `data` constructor omits the
opaque `serde_json::Value` payload produced by the external Reading
Source (`generate_sensor_data`); the payloads are tracked separately by
`deliverTick`. -/
inductive WSMessage where
  | welcome (availableSensors : List String) (message : String)
  | subscribed (sensors : List String) (interval : Nat)
      (unknown : Option (List String))
  | unsubscribed (sensors : List String) (remaining : List String)
  | data (sensor : String) (timestamp : String)
  | sensorsList (sensors : List String)
  | pong (timestamp : String)
  | error (message : String)
deriving DecidableEq

/-- The per-connection mutable attributes of the `Open` state:
`subscriptions: HashSet<String>` and `interval_ms: u64`.  The hash set is
modelled as a duplicate-free list; `HashSet` iteration order is
unspecified in Rust, so properties below constrain only membership where
the source iterates the set. -/
structure SessionState where
  subscriptions : List String
  intervalMs : Nat
deriving DecidableEq

/-- Session attributes at connection open: empty set, 1000 ms. -/
def initSession : SessionState := { subscriptions := [], intervalMs := 1000 }

/-- `HashSet::insert`: adds the key when absent, no effect when
present. -/
def hashSetInsert (l : List String) (s : String) : List String :=
  if s ∈ l then l else l ++ [s]

/-- `HashSet::remove`: removes the key (no effect when absent). -/
def hashSetRemove (l : List String) (s : String) : List String :=
  l.filter (fun x => x ≠ s)

/-- `u64::clamp(100, 60000)` from the `interval` handling. -/
def clampInterval (i : Nat) : Nat :=
  if i < 100 then 100 else if i > 60000 then 60000 else i

/-- Accumulator of the `for s in requested` loop of the Subscribe arm:
the evolving subscription set plus the `valid` and `unknown` vectors. -/
structure SubscribeScan where
  subs : List String
  valid : List String
  unknown : List String
deriving DecidableEq

/-- The `for s in requested` loop body of the Subscribe arm. -/
def subscribeStep (acc : SubscribeScan) (s : String) : SubscribeScan :=
  if s ∈ AVAILABLE_SENSORS then
    { acc with subs := hashSetInsert acc.subs s, valid := acc.valid ++ [s] }
  else
    { acc with unknown := acc.unknown ++ [s] }

/-- The whole Subscribe validation loop over the requested keys. -/
def subscribeScan (subs : List String) (requested : List String) :
    SubscribeScan :=
  requested.foldl subscribeStep { subs := subs, valid := [], unknown := [] }

/-- Result of handling one decoded control frame: the new session
attributes, the reply written to the socket, and whether the delivery
timer was recreated (`send_interval = tokio::time::interval(..)`). -/
structure ActionResult where
  state : SessionState
  reply : WSMessage
  timerRestarted : Bool
deriving DecidableEq

/-- The `match action` of `handle_socket`, one arm per control frame.
`now` stands for `Utc::now().to_rfc3339()`. -/
def handleAction (now : String) (st : SessionState) :
    WSAction → ActionResult
  | WSAction.subscribe sensors interval =>
    let requested := sensors.getD AVAILABLE_SENSORS
    let scan := subscribeScan st.subscriptions requested
    let intervalMs :=
      match interval with
      | some i => clampInterval i
      | none => st.intervalMs
    { state := { subscriptions := scan.subs, intervalMs := intervalMs },
      reply := WSMessage.subscribed scan.subs intervalMs
        (if scan.unknown.isEmpty then none else some scan.unknown),
      timerRestarted := interval.isSome }
  | WSAction.unsubscribe sensors =>
    let targets := sensors.getD st.subscriptions
    let subs := targets.foldl hashSetRemove st.subscriptions
    { state := { subscriptions := subs, intervalMs := st.intervalMs },
      reply := WSMessage.unsubscribed targets subs,
      timerRestarted := false }
  | WSAction.list =>
    { state := st, reply := WSMessage.sensorsList AVAILABLE_SENSORS,
      timerRestarted := false }
  | WSAction.ping =>
    { state := st, reply := WSMessage.pong now, timerRestarted := false }

/-- Outcome of one delivery tick: the `(sensor, payload)` pairs pushed
successfully, and whether a push failure ended the session. -/
structure TickResult (δ : Type) where
  delivered : List (String × δ)
  closed : Bool
deriving DecidableEq

/-- The `for sensor in &subscriptions` loop of the delivery tick: an
unknown key (Reading Source returns `None`) is skipped silently; a key
with a reading is pushed, and a failed push returns from `handle_socket`
at once, abandoning the rest of the tick. -/
def deliverTick {δ : Type} (gen : String → Option δ)
    (pushOk : String → Bool) : List String → TickResult δ
  | [] => { delivered := [], closed := false }
  | s :: rest =>
    match gen s with
    | none => deliverTick gen pushOk rest
    | some d =>
      if pushOk s then
        let r := deliverTick gen pushOk rest
        { delivered := (s, d) :: r.delivered, closed := r.closed }
      else { delivered := [], closed := true }

/-- The two event sources racing in the `tokio::select!` loop, plus
transport closure (`socket.next()` returning `None`/`Err`).  An inbound
text frame that does not decode to a `WSAction` is `inbound none`. -/
inductive SessionEvent where
  | inbound (frame : Option WSAction)
  | transportClosed
  | tick
deriving DecidableEq

/-- The full session: the `Open`-state attributes plus whether the
cooperative loop has ended (`Closed`). -/
structure Session where
  subscriptions : List String
  intervalMs : Nat
  closed : Bool
deriving DecidableEq

/-- One iteration of the `handle_socket` loop.  A closed session is
terminal.  Malformed frames are dropped without reply or state change;
decoded frames go through `handleAction`; transport closure breaks the
loop; a tick delivers readings and closes the session exactly when a push
fails. -/
def sessionStep {δ : Type} (gen : String → Option δ)
    (pushOk : String → Bool) (now : String) (s : Session)
    (ev : SessionEvent) : Session × List WSMessage :=
  if s.closed then (s, []) else
  match ev with
  | SessionEvent.inbound none => (s, [])
  | SessionEvent.inbound (some a) =>
    let r := handleAction now ⟨s.subscriptions, s.intervalMs⟩ a
    ({ subscriptions := r.state.subscriptions,
       intervalMs := r.state.intervalMs, closed := false }, [r.reply])
  | SessionEvent.transportClosed =>
    ({ s with closed := true }, [])
  | SessionEvent.tick =>
    if s.subscriptions.isEmpty then (s, [])
    else
      let r := deliverTick gen pushOk s.subscriptions
      ({ s with closed := r.closed },
       r.delivered.map (fun p => WSMessage.data p.1 now))

/-- The session at connection open (`Open`, empty set, 1000 ms). -/
def openSession : Session :=
  { subscriptions := [], intervalMs := 1000, closed := false }

/-- Folds a sequence of loop events over a session. -/
def runSession {δ : Type} (gen : String → Option δ)
    (pushOk : String → Bool) (now : String) (events : List SessionEvent)
    (s : Session) : Session :=
  events.foldl (fun st ev => (sessionStep gen pushOk now st ev).1) s

theorem mem_hashSetInsert (l : List String) (s x : String) :
    x ∈ hashSetInsert l s ↔ x ∈ l ∨ x = s := by
  unfold hashSetInsert
  by_cases h : s ∈ l
  · simp only [if_pos h]
    constructor
    · exact Or.inl
    · rintro (hx | rfl)
      · exact hx
      · exact h
  · simp [h]

theorem mem_foldl_hashSetRemove (targets : List String) :
    ∀ (l : List String) (x : String),
      x ∈ targets.foldl hashSetRemove l ↔ x ∈ l ∧ x ∉ targets := by
  induction targets with
  | nil => simp
  | cons t ts ih =>
    intro l x
    simp only [List.foldl_cons, ih (hashSetRemove l t)]
    unfold hashSetRemove
    simp only [List.mem_filter, decide_eq_true_eq, List.mem_cons]
    constructor
    · rintro ⟨⟨hl, hne⟩, hts⟩
      exact ⟨hl, by rintro (rfl | hmem) <;> [exact hne rfl; exact hts hmem]⟩
    · rintro ⟨hl, hnot⟩
      exact ⟨⟨hl, fun he => hnot (Or.inl he)⟩, fun hmem => hnot (Or.inr hmem)⟩

theorem subscribeScan_subs_mem_aux (req : List String) :
    ∀ (acc : SubscribeScan) (x : String),
      x ∈ (req.foldl subscribeStep acc).subs ↔
        x ∈ acc.subs ∨ (x ∈ req ∧ x ∈ AVAILABLE_SENSORS) := by
  induction req with
  | nil => simp
  | cons s rest ih =>
    intro acc x
    simp only [List.foldl_cons, ih]
    unfold subscribeStep
    by_cases hs : s ∈ AVAILABLE_SENSORS
    · simp only [if_pos hs, mem_hashSetInsert, List.mem_cons]
      constructor
      · rintro ((hx | rfl) | ⟨hr, hc⟩)
        · exact Or.inl hx
        · exact Or.inr ⟨Or.inl rfl, hs⟩
        · exact Or.inr ⟨Or.inr hr, hc⟩
      · rintro (hx | ⟨(rfl | hr), hc⟩)
        · exact Or.inl (Or.inl hx)
        · exact Or.inl (Or.inr rfl)
        · exact Or.inr ⟨hr, hc⟩
    · simp only [if_neg hs, List.mem_cons]
      constructor
      · rintro (hx | ⟨hr, hc⟩)
        · exact Or.inl hx
        · exact Or.inr ⟨Or.inr hr, hc⟩
      · rintro (hx | ⟨(rfl | hr), hc⟩)
        · exact Or.inl hx
        · exact absurd hc hs
        · exact Or.inr ⟨hr, hc⟩

theorem subscribeScan_subs_mem (subs req : List String) (x : String) :
    x ∈ (subscribeScan subs req).subs ↔
      x ∈ subs ∨ (x ∈ req ∧ x ∈ AVAILABLE_SENSORS) :=
  subscribeScan_subs_mem_aux req { subs := subs, valid := [], unknown := [] } x

theorem subscribeScan_unknown_aux (req : List String) :
    ∀ acc : SubscribeScan,
      (req.foldl subscribeStep acc).unknown =
        acc.unknown ++ req.filter (fun s => decide (s ∉ AVAILABLE_SENSORS)) := by
  induction req with
  | nil => simp
  | cons s rest ih =>
    intro acc
    simp only [List.foldl_cons, ih]
    unfold subscribeStep
    by_cases hs : s ∈ AVAILABLE_SENSORS
    · simp [hs]
    · simp [hs]

theorem subscribeScan_unknown (subs req : List String) :
    (subscribeScan subs req).unknown =
      req.filter (fun s => decide (s ∉ AVAILABLE_SENSORS)) := by
  unfold subscribeScan
  rw [subscribeScan_unknown_aux]
  rfl

/-- C6: a Subscribe frame carrying an interval sets the effective
interval to the value clamped into [100, 60000] and recreates the
delivery timer at that period; 50 clamps up to 100 and 999999 down to
60000. -/
theorem subscribe_interval_clamped (now : String) (st : SessionState)
    (sensors : Option (List String)) (i : Nat) :
    (handleAction now st (WSAction.subscribe sensors (some i))).state.intervalMs
        = clampInterval i ∧
    100 ≤ clampInterval i ∧ clampInterval i ≤ 60000 ∧
    (handleAction now st (WSAction.subscribe sensors (some i))).timerRestarted
        = true ∧
    clampInterval 50 = 100 ∧ clampInterval 999999 = 60000 := by
  refine ⟨rfl, ?_, ?_, rfl, by decide, by decide⟩
  · unfold clampInterval
    split
    · omega
    · split <;> omega
  · unfold clampInterval
    split
    · omega
    · split <;> omega

/-- C10: the Unsubscribe reply lists exactly the requested keys as
removed (the pre-frame subscription set when `sensors` is omitted), even
keys never subscribed; removal of an unsubscribed key leaves the set
unchanged; the `remaining` list is exactly the post-removal set. -/
theorem unsubscribe_removed_and_remaining (now : String) (st : SessionState) :
    (∀ keys,
      (handleAction now st (WSAction.unsubscribe (some keys))).reply =
        WSMessage.unsubscribed keys
          (handleAction now st
            (WSAction.unsubscribe (some keys))).state.subscriptions ∧
      (∀ x,
        x ∈ (handleAction now st
            (WSAction.unsubscribe (some keys))).state.subscriptions ↔
          x ∈ st.subscriptions ∧ x ∉ keys)) ∧
    (∀ k, k ∉ st.subscriptions →
      (handleAction now st
          (WSAction.unsubscribe (some [k]))).state.subscriptions =
        st.subscriptions) ∧
    ((handleAction now st (WSAction.unsubscribe none)).reply =
        WSMessage.unsubscribed st.subscriptions
          (handleAction now st (WSAction.unsubscribe none)).state.subscriptions ∧
      (handleAction now st (WSAction.unsubscribe none)).state.subscriptions
        = []) := by
  refine ⟨fun keys => ⟨rfl, fun x => ?_⟩, fun k hk => ?_, rfl, ?_⟩
  · exact mem_foldl_hashSetRemove keys st.subscriptions x
  · show ([k].foldl hashSetRemove st.subscriptions) = st.subscriptions
    simp only [List.foldl_cons, List.foldl_nil]
    unfold hashSetRemove
    apply List.filter_eq_self.mpr
    intro a ha
    simp only [decide_eq_true_eq]
    rintro rfl
    exact hk ha
  · apply List.eq_nil_iff_forall_not_mem.mpr
    intro x hx
    have h := (mem_foldl_hashSetRemove st.subscriptions st.subscriptions x).mp hx
    exact h.2 h.1

theorem unsubscribe_removed_and_remaining_witness :
    ("humidity" ∉ (["temperature"] : List String)) ∧
    (handleAction "t" ⟨["temperature"], 1000⟩
        (WSAction.unsubscribe (some ["humidity"]))).state.subscriptions =
      ["temperature"] :=
  ⟨by decide,
   (unsubscribe_removed_and_remaining "t" ⟨["temperature"], 1000⟩).2.1
     "humidity" (by decide)⟩

theorem sessionStep_subs_subset {δ : Type} (gen : String → Option δ)
    (pushOk : String → Bool) (now : String) (s : Session)
    (ev : SessionEvent) (x : String)
    (hx : x ∈ (sessionStep gen pushOk now s ev).1.subscriptions) :
    x ∈ s.subscriptions ∨ x ∈ AVAILABLE_SENSORS := by
  unfold sessionStep at hx
  by_cases hc : s.closed
  · rw [if_pos hc] at hx
    exact Or.inl hx
  · rw [if_neg hc] at hx
    match ev with
    | SessionEvent.inbound none => exact Or.inl hx
    | SessionEvent.inbound (some a) =>
      match a with
      | WSAction.subscribe sensors interval =>
        simp only [handleAction] at hx
        rcases (subscribeScan_subs_mem s.subscriptions _ x).mp hx with h | h
        · exact Or.inl h
        · exact Or.inr h.2
      | WSAction.unsubscribe sensors =>
        simp only [handleAction] at hx
        exact Or.inl ((mem_foldl_hashSetRemove _ _ x).mp hx).1
      | WSAction.list => exact Or.inl hx
      | WSAction.ping => exact Or.inl hx
    | SessionEvent.transportClosed => exact Or.inl hx
    | SessionEvent.tick =>
      by_cases he : s.subscriptions.isEmpty
      · rw [if_pos he] at hx
        exact Or.inl hx
      · rw [if_neg he] at hx
        exact Or.inl hx

theorem runSession_subs_valid {δ : Type} (gen : String → Option δ)
    (pushOk : String → Bool) (now : String) (events : List SessionEvent) :
    ∀ (s : Session),
      (∀ x ∈ s.subscriptions, x ∈ AVAILABLE_SENSORS) →
      ∀ x ∈ (runSession gen pushOk now events s).subscriptions,
        x ∈ AVAILABLE_SENSORS := by
  induction events with
  | nil => intro s hs; exact hs
  | cons ev rest ih =>
    intro s hs x hx
    refine ih (sessionStep gen pushOk now s ev).1 ?_ x hx
    intro y hy
    rcases sessionStep_subs_subset gen pushOk now s ev y hy with h | h
    · exact hs y h
    · exact h

/-- C2: across any sequence of control frames (and other loop events) the
subscription set only ever contains catalog keys; a Subscribe frame
reports the invalid requested keys in the reply's `unknown` list and
inserts none of them; concretely, subscribing to
`["temperature", "bogus"]` on a fresh session replies with accepted set
`["temperature"]` and unknown `["bogus"]`, leaving the live set exactly
`["temperature"]`. -/
theorem subscriptions_validated_against_catalog :
    (∀ (δ : Type) (gen : String → Option δ) (pushOk : String → Bool)
        (now : String) (events : List SessionEvent),
      ∀ x ∈ (runSession gen pushOk now events openSession).subscriptions,
        x ∈ AVAILABLE_SENSORS) ∧
    (∀ (now : String) (st : SessionState) (req : List String)
        (iv : Option Nat),
      (handleAction now st (WSAction.subscribe (some req) iv)).reply =
        WSMessage.subscribed
          (handleAction now st
            (WSAction.subscribe (some req) iv)).state.subscriptions
          (handleAction now st
            (WSAction.subscribe (some req) iv)).state.intervalMs
          (if (req.filter (fun s => decide (s ∉ AVAILABLE_SENSORS))).isEmpty
            then none
            else some (req.filter (fun s => decide (s ∉ AVAILABLE_SENSORS)))) ∧
      (∀ x,
        x ∈ (handleAction now st
            (WSAction.subscribe (some req) iv)).state.subscriptions ↔
          x ∈ st.subscriptions ∨ (x ∈ req ∧ x ∈ AVAILABLE_SENSORS))) ∧
    ((handleAction "t" ⟨[], 1000⟩
        (WSAction.subscribe (some ["temperature", "bogus"]) none)).reply =
      WSMessage.subscribed ["temperature"] 1000 (some ["bogus"]) ∧
     (handleAction "t" ⟨[], 1000⟩
        (WSAction.subscribe (some ["temperature", "bogus"])
          none)).state.subscriptions = ["temperature"]) := by
  refine ⟨?_, ?_, by decide, by decide⟩
  · intro δ gen pushOk now events
    exact runSession_subs_valid gen pushOk now events openSession
      (by intro x hx; simp [openSession] at hx)
  · intro now st req iv
    constructor
    · show WSMessage.subscribed (subscribeScan st.subscriptions req).subs
        (match iv with
          | some i => clampInterval i
          | none => st.intervalMs)
        (if (subscribeScan st.subscriptions req).unknown.isEmpty then none
          else some (subscribeScan st.subscriptions req).unknown) = _
      rw [subscribeScan_unknown st.subscriptions req]
      rfl
    · intro x
      exact subscribeScan_subs_mem st.subscriptions req x

theorem subscriptions_validated_witness :
    "temperature" ∈
      (runSession (fun _ => some 0) (fun _ => true) "t"
        [SessionEvent.inbound
          (some (WSAction.subscribe (some ["temperature"]) none))]
        openSession).subscriptions ∧
    "temperature" ∈ AVAILABLE_SENSORS :=
  ⟨by decide,
   (subscriptions_validated_against_catalog).1 Nat (fun _ => some 0)
     (fun _ => true) "t"
     [SessionEvent.inbound
       (some (WSAction.subscribe (some ["temperature"]) none))]
     "temperature" (by decide)⟩

/-- A concrete Reading Source for witnesses: only `temperature` is a
known key. -/
def genW : String → Option Nat :=
  fun s => if s = "temperature" then some 7 else none

/-- A transport on which every push fails. -/
def pushFailW : String → Bool := fun _ => false

/-- A transport on which every push succeeds. -/
def pushAllW : String → Bool := fun _ => true

/-- C7: during a delivery tick, a subscribed key the Reading Source does
not know is skipped silently and the tick continues with the remaining
keys; a push failure ends the tick at once with the session transitioning
to Closed, and the outcome is independent of the keys that remained
(they are never attempted). -/
theorem tick_skips_unknown_and_push_failure_closes :
    (∀ (δ : Type) (gen : String → Option δ) (pushOk : String → Bool)
        (s : String) (rest : List String),
      gen s = none →
        deliverTick gen pushOk (s :: rest) = deliverTick gen pushOk rest) ∧
    (∀ (δ : Type) (gen : String → Option δ) (pushOk : String → Bool)
        (s : String) (d : δ) (rest rest2 : List String),
      gen s = some d → pushOk s = false →
        deliverTick gen pushOk (s :: rest) =
          { delivered := [], closed := true } ∧
        deliverTick gen pushOk (s :: rest) =
          deliverTick gen pushOk (s :: rest2)) ∧
    (∀ (δ : Type) (gen : String → Option δ) (pushOk : String → Bool)
        (now : String) (subs : List String) (iv : Nat),
      (deliverTick gen pushOk subs).closed = true →
        (sessionStep gen pushOk now
            ⟨subs, iv, false⟩ SessionEvent.tick).1.closed = true) := by
  refine ⟨?_, ?_, ?_⟩
  · intro δ gen pushOk s rest hgen
    simp only [deliverTick, hgen]
  · intro δ gen pushOk s d rest rest2 hgen hpush
    constructor
    · simp only [deliverTick, hgen, hpush]
      simp
    · simp only [deliverTick, hgen, hpush]
      simp
  · intro δ gen pushOk now subs iv hclosed
    unfold sessionStep
    simp only [if_neg (by simp : ¬False)]
    by_cases he : subs.isEmpty
    · exfalso
      have : subs = [] := List.isEmpty_iff.mp he
      rw [this] at hclosed
      simp [deliverTick] at hclosed
    · simp only [he]
      simpa using hclosed

theorem tick_skips_unknown_witness :
    genW "bogus" = none ∧
    deliverTick genW pushFailW ["bogus", "temperature"] =
      deliverTick genW pushFailW ["temperature"] ∧
    genW "temperature" = some 7 ∧ pushFailW "temperature" = false ∧
    deliverTick genW pushFailW ["temperature", "humidity"] =
      { delivered := [], closed := true } ∧
    (deliverTick genW pushFailW ["temperature"]).closed = true ∧
    (sessionStep genW pushFailW "t"
        ⟨["temperature"], 1000, false⟩ SessionEvent.tick).1.closed = true :=
  ⟨by decide,
   (tick_skips_unknown_and_push_failure_closes).1 Nat genW pushFailW
     "bogus" ["temperature"] (by decide),
   by decide, by decide,
   ((tick_skips_unknown_and_push_failure_closes).2.1 Nat genW pushFailW
     "temperature" 7 ["humidity"] ["humidity"] (by decide) (by decide)).1,
   by decide,
   (tick_skips_unknown_and_push_failure_closes).2.2 Nat genW pushFailW
     "t" ["temperature"] 1000 (by decide)⟩

/-- C8: a malformed or unrecognized frame in the Open state produces no
reply, changes neither the subscription set nor the interval, and does
not close the session; inbound frames never close it at all — the session
reaches Closed only through transport closure or a failed delivery
push. -/
theorem malformed_frames_ignored_only_transport_closes :
    (∀ (δ : Type) (gen : String → Option δ) (pushOk : String → Bool)
        (now : String) (subs : List String) (iv : Nat),
      sessionStep gen pushOk now ⟨subs, iv, false⟩
          (SessionEvent.inbound none) = (⟨subs, iv, false⟩, [])) ∧
    (∀ (δ : Type) (gen : String → Option δ) (pushOk : String → Bool)
        (now : String) (s : Session) (f : Option WSAction),
      (sessionStep gen pushOk now s (SessionEvent.inbound f)).1.closed
        = s.closed) ∧
    (∀ (δ : Type) (gen : String → Option δ) (pushOk : String → Bool)
        (now : String) (s : Session) (ev : SessionEvent),
      (sessionStep gen pushOk now s ev).1.closed = true →
        s.closed = true ∨ ev = SessionEvent.transportClosed ∨
          (ev = SessionEvent.tick ∧
            (deliverTick gen pushOk s.subscriptions).closed = true)) := by
  refine ⟨?_, ?_, ?_⟩
  · intro δ gen pushOk now subs iv
    rfl
  · intro δ gen pushOk now s f
    unfold sessionStep
    by_cases hc : s.closed
    · rw [if_pos hc]
    · rw [if_neg hc]
      have hcf : s.closed = false := by simpa using hc
      match f with
      | none => simp [hcf]
      | some a => simp [hcf]
  · intro δ gen pushOk now s ev hclosed
    unfold sessionStep at hclosed
    by_cases hc : s.closed
    · exact Or.inl hc
    · rw [if_neg hc] at hclosed
      match ev with
      | SessionEvent.inbound none =>
        exact absurd hclosed (by simpa using hc)
      | SessionEvent.inbound (some a) =>
        simp at hclosed
      | SessionEvent.transportClosed =>
        exact Or.inr (Or.inl rfl)
      | SessionEvent.tick =>
        by_cases he : s.subscriptions.isEmpty
        · rw [if_pos he] at hclosed
          exact absurd hclosed (by simpa using hc)
        · rw [if_neg he] at hclosed
          exact Or.inr (Or.inr ⟨rfl, by simpa using hclosed⟩)

theorem malformed_frames_ignored_witness :
    (sessionStep genW pushAllW "t" openSession
        SessionEvent.transportClosed).1.closed = true ∧
    (openSession.closed = true ∨
      SessionEvent.transportClosed = SessionEvent.transportClosed ∨
      (SessionEvent.transportClosed = SessionEvent.tick ∧
        (deliverTick genW pushAllW openSession.subscriptions).closed
          = true)) :=
  ⟨by decide,
   (malformed_frames_ignored_only_transport_closes).2.2 Nat genW pushAllW
     "t" openSession SessionEvent.transportClosed (by decide)⟩

/-! ## Event Broadcaster (`sse_tx : tokio::sync::broadcast::Sender`)

The broadcaster itself is the tokio broadcast channel, external to this
repository; it is modelled from its documented semantics as used by
`sse_handler` and `log_middleware`: `subscribe()` creates a receiver that
observes only events sent after the call; `send` never blocks and
returns the receiver count (an error, discarded by `let _ =` in
`log_middleware`, when that count is zero — the value is then dropped,
which is unobservable here because no receiver ever reads events sent
before it subscribed); a receiver that falls more than the channel
capacity behind is repositioned to the oldest retained event
(`BroadcastStream`'s `filter_map` in `sse_handler` drops the lag marker
and continues). -/

/-- A broadcast receiver: the index into the publish history of the next
event it will observe. -/
structure Receiver where
  pos : Nat
deriving DecidableEq

/-- The broadcast channel: the full publish history and the number of
live receivers (`receiver_count`). -/
structure BChannel (ε : Type) where
  history : List ε
  receiverCount : Nat
deriving DecidableEq

/-- `sse_tx.subscribe()`: a new receiver positioned at the current end of
the history — events already published are never replayed. -/
def channelSubscribe {ε : Type} (ch : BChannel ε) : BChannel ε × Receiver :=
  ({ ch with receiverCount := ch.receiverCount + 1 },
   { pos := ch.history.length })

/-- `sse_tx.send(event)`: appends to the history and reports the current
receiver count; it never waits for receivers. -/
def channelSend {ε : Type} (ch : BChannel ε) (e : ε) : BChannel ε × Nat :=
  ({ ch with history := ch.history ++ [e] }, ch.receiverCount)

/-- Where a receiver at `pos` actually reads in a history of length
`len`: unchanged when within the capacity bound, else repositioned to the
oldest retained event. -/
def recvIndex (cap len pos : Nat) : Nat :=
  if len - pos > cap then len - cap else pos

/-- One receive step at channel capacity `cap` (100 in `main`): the
receiver is repositioned past any lag gap, observes the event there, and
advances; `none` when it has caught up (it would suspend). -/
def channelRecv {ε : Type} (cap : Nat) (hist : List ε) (r : Receiver) :
    Option (ε × Receiver) :=
  if r.pos < hist.length then
    match hist[recvIndex cap hist.length r.pos]? with
    | some e => some (e, { pos := recvIndex cap hist.length r.pos + 1 })
    | none => none
  else none

/-- C4: a receiver subscribed when the history was `ch.history` only ever
observes events published strictly after that point (its position never
moves below the subscribe point, and each observed event lies in the
later segment); when it is within the lag bound it observes exactly the
next event in publish order; and a send with zero receivers is a no-op
rather than an error: it reports count 0 and a receiver subscribing
afterwards has nothing to receive. -/
theorem broadcaster_no_replay_and_delivery :
    (∀ (ε : Type) (ch : BChannel ε) (more : List ε) (cap p : Nat)
        (e : ε) (r2 : Receiver),
      ch.history.length ≤ p →
      channelRecv cap (ch.history ++ more) { pos := p } = some (e, r2) →
        e ∈ more ∧ ch.history.length < r2.pos) ∧
    (∀ (ε : Type) (es : List ε) (cap p : Nat) (h1 : p < es.length),
      es.length - p ≤ cap →
        channelRecv cap es { pos := p } =
          some (es.get ⟨p, h1⟩, { pos := p + 1 })) ∧
    (∀ (ε : Type) (ch : BChannel ε) (e : ε) (cap : Nat),
      (channelSubscribe ch).2.pos = ch.history.length ∧
      (channelSend ch e).2 = ch.receiverCount ∧
      (ch.receiverCount = 0 →
        (channelSend ch e).2 = 0 ∧
        channelRecv cap (channelSend ch e).1.history
          (channelSubscribe (channelSend ch e).1).2 = none)) := by
  refine ⟨?_, ?_, ?_⟩
  · intro ε ch more cap p e r2 hp hrecv
    unfold channelRecv at hrecv
    by_cases hlt : p < (ch.history ++ more).length
    · rw [if_pos hlt] at hrecv
      set q := recvIndex cap (ch.history ++ more).length p with hq
      have hq_ge : p ≤ q := by
        rw [hq]
        unfold recvIndex
        split
        · omega
        · omega
      match hget : (ch.history ++ more)[q]? with
      | some e0 =>
        rw [hget] at hrecv
        have he : e0 = e ∧ r2 = { pos := q + 1 } := by
          constructor
          · exact congrArg Prod.fst (Option.some.inj hrecv)
          · exact (congrArg Prod.snd (Option.some.inj hrecv)).symm
        have hqlt : q < (ch.history ++ more).length :=
          (List.getElem?_eq_some_iff.mp hget).1
        have hgetq : (ch.history ++ more)[q]? = more[q - ch.history.length]? := by
          rw [List.getElem?_append_right (by omega)]
        have hmem : e ∈ more := by
          rw [← he.1]
          have := hget
          rw [hgetq] at this
          exact List.getElem?_mem this
        refine ⟨hmem, ?_⟩
        rw [he.2]
        simp only
        omega
      | none =>
        rw [hget] at hrecv
        exact absurd hrecv (by simp)
    · rw [if_neg hlt] at hrecv
      exact absurd hrecv (by simp)
  · intro ε es cap p h1 h2
    unfold channelRecv
    have hidx : recvIndex cap es.length ({ pos := p } : Receiver).pos = p := by
      unfold recvIndex
      rw [if_neg (by omega : ¬ es.length - p > cap)]
    rw [if_pos h1, hidx, List.getElem?_eq_getElem h1]
    simp [List.get_eq_getElem]
  · intro ε ch e cap
    refine ⟨rfl, rfl, fun h0 => ⟨by simp [channelSend, h0], ?_⟩⟩
    unfold channelRecv channelSubscribe channelSend
    simp

theorem broadcaster_no_replay_witness :
    (({ history := [10, 20], receiverCount := 1 } :
        BChannel Nat).history.length ≤ 2) ∧
    channelRecv 100
        (({ history := [10, 20], receiverCount := 1 } :
          BChannel Nat).history ++ [30]) { pos := 2 } =
      some (30, { pos := 3 }) ∧
    ((30 : Nat) ∈ [30] ∧
      ({ history := [10, 20], receiverCount := 1 } :
        BChannel Nat).history.length < ({ pos := 3 } : Receiver).pos) :=
  ⟨by decide, by decide,
   (broadcaster_no_replay_and_delivery).1 Nat
     { history := [10, 20], receiverCount := 1 } [30] 100 2 30
     { pos := 3 } (by decide) (by decide)⟩

/-! ## Stats Aggregator (`get_stats`) -/

/-- The per-endpoint accumulator `get_stats` keeps in its `HashMap`:
`count`, `totalTime`, `errors` and the `avgResponseTime` recomputed on
every iteration. -/
structure EndpointStat where
  count : Nat
  totalTime : Nat
  errors : Nat
  avgResponseTime : Nat
deriving DecidableEq

/-- The `or_insert` default of the loop (`count: 0, totalTime: 0,
errors: 0`; the average of the default is never read). -/
def statsEmpty : EndpointStat :=
  { count := 0, totalTime := 0, errors := 0, avgResponseTime := 0 }

/-- One iteration of the `for entry in logs.iter()` loop of `get_stats`,
on the map-so-far (the `HashMap` is modelled extensionally as a lookup
function). -/
def statsFold (m : String → Option EndpointStat) (e : AccessLogEntry) :
    String → Option EndpointStat :=
  let prev := (m e.endpoint).getD statsEmpty
  let count := prev.count + 1
  let totalTime := prev.totalTime + e.responseTime
  let errors := if e.statusCode ≥ 400 then prev.errors + 1 else prev.errors
  fun p =>
    if p = e.endpoint then
      some { count := count, totalTime := totalTime, errors := errors,
             avgResponseTime := if count > 0 then totalTime / count else 0 }
    else m p

/-- The whole `get_stats` aggregation over a log, front to back. -/
def computeStats (log : List AccessLogEntry) : String → Option EndpointStat :=
  log.foldl statsFold (fun _ => none)

/-- `get_stats` computed over the currently retained log of the recorder
state (not over the all-time history). -/
def getStats (s : AccessState) : String → Option EndpointStat :=
  computeStats s.log

/-- The records of a log on one endpoint path. -/
def epRecords (log : List AccessLogEntry) (p : String) :
    List AccessLogEntry :=
  log.filter (fun e => decide (e.endpoint = p))

/-- Number of retained records on the path. -/
def epCount (log : List AccessLogEntry) (p : String) : Nat :=
  (epRecords log p).length

/-- Summed response time of retained records on the path. -/
def epTotal (log : List AccessLogEntry) (p : String) : Nat :=
  ((epRecords log p).map (fun e => e.responseTime)).sum

/-- Number of retained records on the path with status code at least
400. -/
def epErrors (log : List AccessLogEntry) (p : String) : Nat :=
  ((epRecords log p).filter (fun e => decide (400 ≤ e.statusCode))).length

theorem epCount_cons (e : AccessLogEntry) (log : List AccessLogEntry)
    (p : String) :
    epCount (e :: log) p =
      (if e.endpoint = p then 1 else 0) + epCount log p := by
  unfold epCount epRecords
  by_cases h : e.endpoint = p
  · simp [h, List.filter_cons, Nat.add_comm]
  · simp [h, List.filter_cons]

theorem epTotal_cons (e : AccessLogEntry) (log : List AccessLogEntry)
    (p : String) :
    epTotal (e :: log) p =
      (if e.endpoint = p then e.responseTime else 0) + epTotal log p := by
  unfold epTotal epRecords
  by_cases h : e.endpoint = p
  · simp [h, List.filter_cons]
  · simp [h, List.filter_cons]

theorem epErrors_cons (e : AccessLogEntry) (log : List AccessLogEntry)
    (p : String) :
    epErrors (e :: log) p =
      (if e.endpoint = p ∧ 400 ≤ e.statusCode then 1 else 0)
        + epErrors log p := by
  unfold epErrors epRecords
  by_cases h : e.endpoint = p
  · by_cases h4 : 400 ≤ e.statusCode
    · simp [h, h4, List.filter_cons, Nat.add_comm]
    · simp [h, h4, List.filter_cons]
  · simp [h, List.filter_cons]

theorem epZero_total_errors (log : List AccessLogEntry) (p : String)
    (h : epCount log p = 0) : epTotal log p = 0 ∧ epErrors log p = 0 := by
  unfold epCount at h
  have hnil : epRecords log p = [] := List.length_eq_zero.mp h
  unfold epTotal epErrors
  rw [hnil]
  simp

theorem statsFold_lookup (log : List AccessLogEntry) :
    ∀ (m : String → Option EndpointStat) (p : String),
      (log.foldl statsFold m) p =
        if epCount log p = 0 then m p
        else
          some
            { count := ((m p).getD statsEmpty).count + epCount log p,
              totalTime := ((m p).getD statsEmpty).totalTime + epTotal log p,
              errors := ((m p).getD statsEmpty).errors + epErrors log p,
              avgResponseTime :=
                (((m p).getD statsEmpty).totalTime + epTotal log p) /
                  (((m p).getD statsEmpty).count + epCount log p) } := by
  induction log with
  | nil =>
    intro m p
    simp [epCount, epRecords]
  | cons e rest ih =>
    intro m p
    rw [List.foldl_cons, ih (statsFold m e) p]
    by_cases hp : e.endpoint = p
    · subst hp
      have hm : statsFold m e e.endpoint =
          some { count := ((m e.endpoint).getD statsEmpty).count + 1,
                 totalTime :=
                   ((m e.endpoint).getD statsEmpty).totalTime + e.responseTime,
                 errors := ((m e.endpoint).getD statsEmpty).errors +
                   (if 400 ≤ e.statusCode then 1 else 0),
                 avgResponseTime :=
                   (((m e.endpoint).getD statsEmpty).totalTime +
                       e.responseTime) /
                     (((m e.endpoint).getD statsEmpty).count + 1) } := by
        by_cases h4 : 400 ≤ e.statusCode
        · simp [statsFold, h4, ge_iff_le]
        · simp [statsFold, h4, ge_iff_le]
      rw [hm, epCount_cons, epTotal_cons, epErrors_cons]
      by_cases hrest : epCount rest e.endpoint = 0
      · have hz := epZero_total_errors rest e.endpoint hrest
        simp [hrest, hz.1, hz.2]
      · simp [hrest, Nat.add_assoc]
    · have hm : statsFold m e p = m p := by
        simp only [statsFold]
        rw [if_neg (fun h => hp h.symm)]
      rw [hm, epCount_cons, epTotal_cons, epErrors_cons]
      simp [hp]

/-- The two-record log of the concrete Stats Aggregator scenario: one
status-200/10 ms and one status-500/30 ms request on `/x` (front of the
list = most recent). -/
def exampleLog : List AccessLogEntry :=
  [{ id := 2, timestamp := "t2", ip := "127.0.0.1", userAgent := "curl",
     endpoint := "/x", method := "GET", statusCode := 500,
     responseTime := 30, deviceId := none },
   { id := 1, timestamp := "t1", ip := "127.0.0.1", userAgent := "curl",
     endpoint := "/x", method := "GET", statusCode := 200,
     responseTime := 10, deviceId := none }]

/-- C5: `get_stats` groups the currently retained records by endpoint
path; per path it reports the record count, the count of records with
status at least 400, and the truncating average `totalTime / count`
(paths with no records are absent, matching the dead `else 0` arm);
the concrete one-200/10ms-plus-one-500/30ms log on `/x` yields count 2,
errors 1, average 20. -/
theorem stats_per_endpoint_correct :
    (∀ (s : AccessState) (p : String),
      getStats s p =
        if epCount s.log p = 0 then none
        else
          some { count := epCount s.log p, totalTime := epTotal s.log p,
                 errors := epErrors s.log p,
                 avgResponseTime := epTotal s.log p / epCount s.log p }) ∧
    computeStats exampleLog "/x" =
      some { count := 2, totalTime := 40, errors := 1,
             avgResponseTime := 20 } := by
  constructor
  · intro s p
    unfold getStats computeStats
    rw [statsFold_lookup s.log (fun _ => none) p]
    simp [statsEmpty]
  · decide

end Simmurator
